import Mathlib

/-!
Verification development for the HER rollout worker
(`baselines/her/rollout.py`) and its experiment configuration
(`baselines/her/experiment/config.py`).

Modelling conventions:
* Machine floats become rationals (`ℚ`).  A NaN entry of an observation
  vector is represented by `none` in `Obs := List (Option ℚ)`; the
  `np.isnan(o_new).any()` test of line 159 becomes an `Option.isNone` scan.
* Environments are black boxes; an `Env` is a scripted process giving the
  value `reset()` returns now and, for each timestep `t` of the current
  episode, the outcome of `step(action)` at `t`.  A raised
  `MujocoException` is the outcome `StepResult.fault`.  Environments are
  modelled as pure scripts, so stepping them has no hidden state; this is
  adequate because every claim below observes only the data the worker
  records.
* The policy (`self.policy.get_actions`) is a black-box function of the
  batched observation, skill, achieved-goal and desired-goal inputs
  together with the exploration flags; it returns an action batch (possibly
  one-dimensional, see lines 116-118) and a Q-value vector that the worker
  reads only when `compute_Q` is set.
* Python `False` default arguments that stand for "absent array"
  (`generated_goal=False`, `z_s_onehot=False`) become `Option` arguments
  with `none` for `False`.
* Unbounded recursive retry (`return self.generate_rollouts()`) is given a
  fuel parameter; the retried call is reproduced verbatim (default
  arguments), so the fuel never actually matters beyond one level.
* Rendering (`self.render`) is I/O and is not modelled; all claims concern
  the `render=False` path, on which the code returns only the episode.
* The logger is a side-effect sink with no observable return value; the
  warning of line 160 is therefore not part of the state.
-/

/-- Observation vector; `none` is a NaN entry. -/
abbrev Obs := List (Option ℚ)

/-- Plain numeric vector. -/
abbrev Vec := List ℚ

/-- Numeric matrix (list of rows). -/
abbrev Mat := List Vec

/-- The `info` dictionary returned by `env.step`: the optional
`is_success` entry (line 129), the optional `cur_step` entry (line 134),
and the values for the worker's `info_keys`, in order (line 145). -/
structure Info where
  is_success : Option ℚ
  cur_step : Option Int
  vals : List Vec
deriving Repr

instance : Inhabited Info := ⟨⟨none, none, []⟩⟩

/-- Observation payload of a step: either a goal-conditioned dict
observation (lines 142-146) or a plain array observation (lines 147-149). -/
inductive StepObs where
  | dict (observation : Obs) (achieved_goal : Vec)
  | plain (observation : Obs)
deriving Repr

/-- Outcome of `env.step`: a simulator-internal fault (`MujocoException`,
line 156) or a quadruple `(obs, reward, done, info)` (line 128). -/
inductive StepResult where
  | fault
  | ok (obs : StepObs) (reward : ℚ) (done : Bool) (info : Info)
deriving Repr

instance : Inhabited StepResult := ⟨.fault⟩

def StepResult.isFault : StepResult → Bool
  | .fault => true
  | .ok _ _ _ _ => false

def StepResult.obsOf : StepResult → StepObs
  | .fault => .plain []
  | .ok ob _ _ _ => ob

def StepResult.rewardOf : StepResult → ℚ
  | .fault => 0
  | .ok _ r _ _ => r

def StepResult.doneOf : StepResult → Bool
  | .fault => false
  | .ok _ _ d _ => d

def StepResult.infoOf : StepResult → Info
  | .fault => default
  | .ok _ _ _ i => i

/-- The `observation` component of a step observation (lines 143 and 148). -/
def StepObs.observation : StepObs → Obs
  | .dict o _ => o
  | .plain o => o

/-- The achieved goal recorded for a step: the dict entry (line 144), or a
zero vector of goal width in the non-dict case (line 149). -/
def StepObs.agOf (dims_g : Nat) : StepObs → Vec
  | .dict _ a => a
  | .plain _ => List.replicate dims_g 0

def StepObs.isDict : StepObs → Bool
  | .dict _ _ => true
  | .plain _ => false

/-- What `env.reset()` returns (line 55): a dict observation with
`observation`, `achieved_goal` and `desired_goal` entries (lines 56-61) or
a plain observation (lines 62-65). -/
inductive ResetObs where
  | dict (observation : Obs) (achieved_goal : Vec) (desired_goal : Vec)
  | plain (observation : Obs)
deriving Repr

/-- A scripted environment: the value the next `reset()` returns, and the
outcome of the `t`-th `step(action)` call of the episode started by that
reset. -/
structure Env where
  resetObs : ResetObs
  stepAt : Nat → Vec → StepResult

instance : Inhabited Env := ⟨⟨.plain [], fun _ _ => .fault⟩⟩

/-- Action batch returned by the policy; the one-dimensional case is
reshaped to a batch of one by lines 116-118. -/
inductive ActOut where
  | one (u : Vec)
  | many (us : Mat)

/-- Lines 116-118: a 1-D action array becomes a 2-D batch of one row. -/
def reshapeU : ActOut → Mat
  | .one u => [u]
  | .many us => us

/-- Black-box `policy.get_actions` (lines 101-108).  Arguments, in order:
observations, skills, achieved goals, goals, `compute_Q`, `noise_eps`,
`random_eps`, `use_target_net`, `exploit`.  The second component is the
Q-value batch; the source unpacks it only when `compute_Q` is set
(lines 110-114). -/
abbrev Policy := List Obs → Mat → Mat → Mat → Bool → ℚ → ℚ → Bool → Bool → ActOut × Vec

/-- The `RolloutWorker` state: constructor configuration (lines 12-34),
the statistics deques (lines 38-44), and the live buffers `g`,
`initial_o`, `initial_ag` (lines 45-47).  `dims_g` is `dims['g']` and
`numInfo` the number of `info_` keys of `dims` (line 36). -/
structure Worker where
  T : Nat
  rollout_batch_size : Nat
  dims_g : Nat
  numInfo : Nat
  exploit : Bool
  use_target_net : Bool
  compute_Q : Bool
  noise_eps : ℚ
  random_eps : ℚ
  history_len : Nat
  policy : Policy
  envs : List Env
  success_history : List ℚ
  Q_history : List ℚ
  episode_length_history : List ℚ
  once_success_history : List ℚ
  return_history : List ℚ
  n_episodes : Nat
  g : Mat
  initial_o : List Obs
  initial_ag : Mat

/-- The `noise_eps` value passed to `policy.get_actions` (line 104):
zeroed when `exploit` is set. -/
def noiseEpsPassed (w : Worker) : ℚ :=
  if w.exploit then 0 else w.noise_eps

/-- The `random_eps` value passed to `policy.get_actions` (line 105):
forced to `1` when `random_action` is set, otherwise zeroed when
`exploit` is set, otherwise the configured value. -/
def randomEpsPassed (w : Worker) (random_action : Bool) : ℚ :=
  if random_action then 1 else if w.exploit then 0 else w.random_eps

/-- Lines 51-65, `reset_rollout(i, generated_goal)`: reset environment
`i`; on a dict observation take the sampled `desired_goal` unless a
`generated_goal` array overrides it (lines 57-59; the assignment to
`self.envs[i].env.goal` mutates the black-box environment and is not
recorded here), on a plain observation zero-fill the goal and achieved
goal (lines 62-65). -/
def reset_rollout (w : Worker) (i : Nat) (generated_goal : Option Mat) : Worker :=
  match (w.envs.getD i default).resetObs with
  | .dict ob agv dg =>
      { w with
        g := w.g.set i (match generated_goal with
          | some gg => gg.getD i []
          | none => dg),
        initial_o := w.initial_o.set i ob,
        initial_ag := w.initial_ag.set i agv }
  | .plain ob =>
      { w with
        g := w.g.set i (List.replicate w.dims_g 0),
        initial_o := w.initial_o.set i ob,
        initial_ag := w.initial_ag.set i (List.replicate w.dims_g 0) }

/-- Lines 67-71, `reset_all_rollouts`. -/
def reset_all_rollouts (w : Worker) (generated_goal : Option Mat) : Worker :=
  (List.range w.rollout_batch_size).foldl (fun w' i => reset_rollout w' i generated_goal) w

/-- The mutable loop state of `generate_rollouts`: current observation and
achieved-goal buffers, the time-major trajectory accumulators
(lines 87-88), the per-key `info_values` (line 94, built incrementally
here instead of being preallocated), the Q-value log (line 95), and the
per-environment scalars of lines 96-99. -/
structure LoopState where
  o : List Obs
  ag : Mat
  obs : List (List Obs)
  zs : List Mat
  achieved_goals : List Mat
  acts : List Mat
  goals : List Mat
  successes : List Vec
  rewards : List Vec
  dones : List (List Bool)
  valids : List (List Bool)
  info_values : List (List Mat)
  Qs : List Vec
  cur_valid : List Bool
  lengths : List Int
  once_successes : Vec
  returns : Vec

/-- Result of one iteration of the `for t in range(self.T)` loop. -/
inductive StepOutcome where
  | fault
  | nanObs
  | ok (s : LoopState)

/-- Line 128: the results of stepping every environment with its action
row (environments are pure scripts, so evaluating them all and then
testing for a fault is equivalent to the sequential loop that aborts at
the first `MujocoException`: the per-index data written before the fault
is local to the call and is discarded on the fault path). -/
def stepResults (w : Worker) (t : Nat) (u : Mat) : List StepResult :=
  (List.range w.rollout_batch_size).map fun i => (w.envs.getD i default).stepAt t (u.getD i [])

/-- Lines 120 and 142-148: the new observation row of each environment. -/
def newONew (w : Worker) (rs : List StepResult) : List Obs :=
  (List.range w.rollout_batch_size).map fun i => (rs.getD i default).obsOf.observation

/-- Lines 121, 144 and 149: the new achieved-goal row of each
environment. -/
def newAgNew (w : Worker) (rs : List StepResult) : Mat :=
  (List.range w.rollout_batch_size).map fun i => (rs.getD i default).obsOf.agOf w.dims_g

/-- Lines 122 and 129-130: success flags, zero when the environment does
not surface `is_success`. -/
def newSuccess (w : Worker) (rs : List StepResult) : Vec :=
  (List.range w.rollout_batch_size).map fun i => ((rs.getD i default).infoOf.is_success).getD 0

/-- Lines 123 and 131: per-environment rewards of this step. -/
def newReward (w : Worker) (rs : List StepResult) : Vec :=
  (List.range w.rollout_batch_size).map fun i => (rs.getD i default).rewardOf

/-- Lines 124 and 132: per-environment done flags of this step. -/
def newDone (w : Worker) (rs : List StepResult) : List Bool :=
  (List.range w.rollout_batch_size).map fun i => (rs.getD i default).doneOf

/-- Lines 133-137: record the episode length at the first
terminal-or-horizon event, from `info['cur_step']` when available, else
`t + 1`. -/
def newLengths (w : Worker) (rs : List StepResult) (t : Nat) (old : List Int) : List Int :=
  (List.range w.rollout_batch_size).map fun i =>
    if ((rs.getD i default).doneOf = true ∨ t = w.T - 1) ∧ old.getD i (-1) = -1 then
      match (rs.getD i default).infoOf.cur_step with
      | some c => c
      | none => (t : Int) + 1
    else old.getD i (-1)

/-- Lines 138-139: latch the once-success flag. -/
def newOnce (w : Worker) (succ old : Vec) : Vec :=
  (List.range w.rollout_batch_size).map fun i =>
    if 0 < succ.getD i 0 then (1 : ℚ) else old.getD i 0

/-- Lines 140-141: accumulate the reward only while still valid. -/
def newReturns (w : Worker) (cv : List Bool) (cr old : Vec) : Vec :=
  (List.range w.rollout_batch_size).map fun i =>
    if cv.getD i false then old.getD i 0 + cr.getD i 0 else old.getD i 0

/-- Lines 176-178: invalidate every environment that reported done. -/
def newCurValid (w : Worker) (cd cv : List Bool) : List Bool :=
  (List.range w.rollout_batch_size).map fun i =>
    if cd.getD i false then false else cv.getD i false

/-- Lines 145-146: write this step's info row of every key; in the
non-dict case the source leaves the preallocated `np.empty` slot
uninitialized, rendered here by an empty placeholder row. -/
def newInfoValues (w : Worker) (rs : List StepResult) (old : List (List Mat)) : List (List Mat) :=
  (List.range w.numInfo).map fun k =>
    old.getD k [] ++
      [(List.range w.rollout_batch_size).map fun i =>
        if (rs.getD i default).obsOf.isDict then (rs.getD i default).infoOf.vals.getD k []
        else []]

/-- Line 159: `np.isnan(o_new).any()`. -/
def hasNaNObs (rows : List Obs) : Bool :=
  rows.any fun row => row.any fun v => v.isNone

/-- One iteration of the timestep loop, lines 100-178. -/
def runStep (w : Worker) (gfix : Mat) (z : Mat) (random_action : Bool)
    (t : Nat) (s : LoopState) : StepOutcome :=
  let pout := w.policy s.o z s.ag gfix w.compute_Q (noiseEpsPassed w)
    (randomEpsPassed w random_action) w.use_target_net w.exploit
  let u := reshapeU pout.1
  let Qs' := if w.compute_Q then s.Qs ++ [pout.2] else s.Qs
  let results := stepResults w t u
  if results.any StepResult.isFault then .fault
  else
    let o_new := newONew w results
    let success := newSuccess w results
    let cur_reward := newReward w results
    let cur_done := newDone w results
    if hasNaNObs o_new then .nanObs
    else .ok
      { o := o_new
        ag := newAgNew w results
        obs := s.obs ++ [s.o]
        zs := s.zs ++ [z]
        achieved_goals := s.achieved_goals ++ [s.ag]
        acts := s.acts ++ [u]
        goals := s.goals ++ [gfix]
        successes := s.successes ++ [success]
        rewards := s.rewards ++ [cur_reward]
        dones := s.dones ++ [cur_done]
        valids := s.valids ++ [s.cur_valid]
        info_values := newInfoValues w results s.info_values
        Qs := Qs'
        cur_valid := newCurValid w cur_done s.cur_valid
        lengths := newLengths w results t s.lengths
        once_successes := newOnce w success s.once_successes
        returns := newReturns w s.cur_valid cur_reward s.returns }

/-- Overall outcome of the timestep loop. -/
inductive RolloutOutcome where
  | fault
  | nanObs
  | done (s : LoopState)

/-- The `for t in range(self.T)` loop (lines 100-178), running `n` more
iterations starting at timestep `t`. -/
def runLoop (w : Worker) (gfix : Mat) (z : Mat) (random_action : Bool) :
    Nat → Nat → LoopState → RolloutOutcome
  | _, 0, s => .done s
  | t, n + 1, s =>
    match runStep w gfix z random_action t s with
    | .fault => .fault
    | .nanObs => .nanObs
    | .ok s' => runLoop w gfix z random_action (t + 1) n s'

/-- Time-major episode dictionary of lines 188-200. -/
structure EpisodeTM where
  o : List (List Obs)
  z : List Mat
  u : List Mat
  g : List Mat
  ag : List Mat
  myr : List Vec
  myd : List (List Bool)
  myv : List (List Bool)
  info : List (List Mat)

/-- Modelled from the spec: `convert_episode_to_batch_major` lives in
`baselines/her/util.py`, which is not among the given sources.  Spec
section 4.2 defines it as a pure transpose of every field from shape
`[T(+1), batch, ...]` to `[batch, T(+1), ...]` with no other logic.  The
batch width is the row width of the time-major array, read off its first
row. -/
def transposeTM [Inhabited α] (tm : List (List α)) : List (List α) :=
  (List.range (tm.headD []).length).map fun i => tm.map fun row => row.getD i default

/-- Batch-major episode, result of the conversion. -/
structure EpisodeBM where
  o : List (List Obs)
  z : List Mat
  u : List Mat
  g : List Mat
  ag : List Mat
  myr : List Vec
  myd : List (List Bool)
  myv : List (List Bool)
  info : List (List Mat)

instance : Inhabited EpisodeBM := ⟨⟨[], [], [], [], [], [], [], [], []⟩⟩

/-- Modelled from the spec: the field-wise batch-major conversion of spec
section 4.2 applied to the episode dictionary (line 214 / 216). -/
def convertEpisodeToBatchMajor (e : EpisodeTM) : EpisodeBM :=
  { o := transposeTM e.o
    z := transposeTM e.z
    u := transposeTM e.u
    g := transposeTM e.g
    ag := transposeTM e.ag
    myr := transposeTM e.myr
    myd := transposeTM e.myd
    myv := transposeTM e.myv
    info := e.info.map transposeTM }

/-- `np.mean` of a vector.  On the empty vector NumPy yields NaN; here the
rational division by zero yields `0`, a junk value no claim relies on. -/
def npMean (l : Vec) : ℚ := l.sum / (l.length : ℚ)

/-- `np.mean` of an integer vector (the `lengths` array of line 97). -/
def npMeanInt (l : List Int) : ℚ := ((l.sum : ℚ)) / (l.length : ℚ)

/-- `np.mean(Qs)` over the list of per-step Q-value arrays (line 210). -/
def npMeanFlat (l : List Vec) : ℚ := npMean l.flatten

/-- Append on a `deque(maxlen=n)`: the new element goes to the right and
the oldest elements are evicted from the left down to capacity. -/
def dequePush (maxlen : Nat) (q : List ℚ) (x : ℚ) : List ℚ :=
  let q2 := q ++ [x]
  q2.drop (q2.length - maxlen)

/-- Initial loop state of `generate_rollouts` (lines 80-99): observation
and achieved-goal buffers copied from the post-reset initial buffers,
empty accumulators, all-ones validity, `lengths = -1`, zero once-success
and return accumulators. -/
def initLoopState (w1 : Worker) : LoopState :=
  { o := w1.initial_o
    ag := w1.initial_ag
    obs := []
    zs := []
    achieved_goals := []
    acts := []
    goals := []
    successes := []
    rewards := []
    dones := []
    valids := []
    info_values := List.replicate w1.numInfo []
    Qs := []
    cur_valid := List.replicate w1.rollout_batch_size true
    lengths := List.replicate w1.rollout_batch_size (-1)
    once_successes := List.replicate w1.rollout_batch_size 0
    returns := List.replicate w1.rollout_batch_size 0 }

/-- Lines 180-216: assemble the episode dictionary, update the statistics
deques and episode counter, and return the batch-major episode together
with the updated worker. -/
def finishRollout (w1 : Worker) (s : LoopState) : EpisodeBM × Worker :=
  let obsF := s.obs ++ [s.o]
  let agF := s.achieved_goals ++ [s.ag]
  let successful := s.successes.getLastD (List.replicate w1.rollout_batch_size 0)
  let epTM : EpisodeTM :=
    { o := obsF, z := s.zs, u := s.acts, g := s.goals, ag := agF,
      myr := s.rewards, myd := s.dones, myv := s.valids, info := s.info_values }
  let w2 : Worker :=
    { w1 with
      initial_o := s.o
      success_history := dequePush w1.history_len w1.success_history (npMean successful)
      once_success_history := dequePush w1.history_len w1.once_success_history (npMean s.once_successes)
      return_history := dequePush w1.history_len w1.return_history (npMean s.returns)
      episode_length_history := dequePush w1.history_len w1.episode_length_history (npMeanInt s.lengths)
      Q_history := if w1.compute_Q then dequePush w1.history_len w1.Q_history (npMeanFlat s.Qs)
        else w1.Q_history
      n_episodes := w1.n_episodes + w1.rollout_batch_size }
  (convertEpisodeToBatchMajor epTM, w2)

/-- Failure modes of `generate_rollouts` as a Python computation. -/
inductive RErr where
  | outOfFuel
  | attributeError
deriving Repr, DecidableEq

/-- Lines 73-216, `generate_rollouts(generated_goal, z_s_onehot,
random_action)`.  `none` for `generated_goal` or `z_s_onehot` is the
Python default `False`.  Line 84 `z = z_s_onehot.copy()` raises
`AttributeError` when `z_s_onehot` is the default `False` (a `bool` has
no `copy` method): that is the `.error .attributeError` branch, reached
after the resets of line 77 have already run.  A `MujocoException`
(line 157) or a NaN observation (lines 159-162, the NaN path resets every
environment first) triggers `return self.generate_rollouts()` with
default arguments, reproduced here verbatim on decremented fuel. -/
def generate_rollouts :
    Nat → Worker → Option Mat → Option Mat → Bool → Except RErr (EpisodeBM × Worker)
  | 0, _, _, _, _ => .error .outOfFuel
  | fuel + 1, w, generated_goal, z_s_onehot, random_action =>
    let w1 := reset_all_rollouts w generated_goal
    match z_s_onehot with
    | none => .error .attributeError
    | some z =>
      match runLoop w1 w1.g z random_action 0 w1.T (initLoopState w1) with
      | .fault => generate_rollouts fuel w1 none none false
      | .nanObs => generate_rollouts fuel (reset_all_rollouts w1 none) none none false
      | .done s => .ok (finishRollout w1 s)

/-- Python `str.endswith(suffix)` over the character lists of the two
strings (the built-in `String.endsWith` does not reduce well inside
proofs). -/
def charListEndsWith (s sfx : List Char) : Bool :=
  decide (sfx = s.drop (s.length - sfx.length))

/-- Python `prefix.endswith(x)`. -/
def pyEndsWith (s sfx : String) : Bool := charListEndsWith s.data sfx.data

/-- Lines 239-255, `logs(prefix)`: the flat ordered statistics list, with
every name prefixed when the prefix is non-empty and does not already end
in a slash.  (`prefix is not ''` is an identity test in the source; under
CPython string interning it behaves as inequality, which is how it is
modelled.) -/
def Worker.logs (w : Worker) (pfx : String) : List (String × ℚ) :=
  let base : List (String × ℚ) :=
    [("num_trajs", ((w.success_history.length * w.rollout_batch_size : Nat) : ℚ)),
     ("success_rate", npMean w.success_history),
     ("once_success_rate", npMean w.once_success_history),
     ("return", npMean w.return_history),
     ("episode_length", npMean w.episode_length_history)] ++
    (if w.compute_Q then [("mean_Q", npMean w.Q_history)] else []) ++
    [("episode", (w.n_episodes : ℚ))]
  if pfx ≠ "" ∧ pyEndsWith pfx "/" = false then
    base.map fun p => (pfx ++ "/" ++ p.1, p.2)
  else base

/-! ## Experiment configuration (`baselines/her/experiment/config.py`) -/

/-- The probe environment as `prepare_params` sees it: the optional
`_max_episode_steps` attribute (absent attribute = `none`). -/
structure EnvHandle where
  max_episode_steps : Option Int
deriving Repr

/-- The slice of the parameter dictionary that lines 115-120 of
`config.py` fill in: the horizon and the discount derived from it. -/
structure ConfigParams where
  T : Int
  gamma : ℚ
deriving Repr, DecidableEq

/-- Lines 115-120 of `config.py`: `prepare_params` probes the environment
built through `cached_make_env`; `assert hasattr(tmp_env,
'_max_episode_steps')` fails when the attribute is absent, otherwise
`kwargs['T']` is set to it and `gamma = 1 - 1/T`. -/
def prepare_params (tmp_env : EnvHandle) : Except String ConfigParams :=
  match tmp_env.max_episode_steps with
  | none => .error "assert hasattr failed: no max episode steps attribute"
  | some n => .ok { T := n, gamma := 1 - 1 / (n : ℚ) }

/-- Lines 12-49 of `rollout.py`, `RolloutWorker.__init__`: build one
environment per parallel rollout, assert `self.T > 0`, start with empty
statistics deques and zero episodes, allocate the `g`, `initial_o` and
`initial_ag` buffers (here as placeholder rows standing for `np.empty`),
then reset every rollout.  `clear_history` on freshly empty deques is a
no-op. -/
def RolloutWorker.init (make_env : Unit → Env) (pol : Policy)
    (dims_g numInfo : Nat) (T : Int) (rollout_batch_size : Nat)
    (exploit use_target_net compute_Q : Bool) (noise_eps random_eps : ℚ)
    (history_len : Nat) : Except String Worker :=
  let envs := (List.range rollout_batch_size).map fun _ => make_env ()
  if 0 < T then
    .ok (reset_all_rollouts
      { T := T.toNat
        rollout_batch_size := rollout_batch_size
        dims_g := dims_g
        numInfo := numInfo
        exploit := exploit
        use_target_net := use_target_net
        compute_Q := compute_Q
        noise_eps := noise_eps
        random_eps := random_eps
        history_len := history_len
        policy := pol
        envs := envs
        success_history := []
        Q_history := []
        episode_length_history := []
        once_success_history := []
        return_history := []
        n_episodes := 0
        g := List.replicate rollout_batch_size []
        initial_o := List.replicate rollout_batch_size []
        initial_ag := List.replicate rollout_batch_size [] } none)
  else .error "assert failed: T must be positive"

/-- Process state around `CACHED_ENVS` (line 80 of `config.py`): the cache
keyed by factory function, plus an invocation log recording which factory
was actually called, used to observe how often each factory runs.  A
factory is modelled as `mk : K → Nat → E`, receiving its own key and the
number of times it has already been invoked, so distinct invocations may
produce distinct objects. -/
structure CacheState (K E : Type) where
  cache : List (K × E)
  calls : List K

/-- Association-list lookup for the cache dictionary. -/
def cacheFind [DecidableEq K] (k : K) : List (K × E) → Option E
  | [] => none
  | (k', e) :: rest => if k = k' then some e else cacheFind k rest

/-- Number of occurrences of a key in the invocation log. -/
def countK [DecidableEq K] (k : K) : List K → Nat
  | [] => 0
  | x :: rest => (if x = k then 1 else 0) + countK k rest

/-- Lines 81-90 of `config.py`, `cached_make_env(make_env)`: return the
cached environment when the factory already has one, otherwise invoke the
factory once, cache the result and return it. -/
def cached_make_env [DecidableEq K] (mk : K → Nat → E) (k : K)
    (s : CacheState K E) : E × CacheState K E :=
  match cacheFind k s.cache with
  | some e => (e, s)
  | none =>
    let e := mk k (countK k s.calls)
    (e, ⟨(k, e) :: s.cache, s.calls ++ [k]⟩)

/-- A sequence of `cached_make_env` requests, as issued by the
configuration entry points (`prepare_params`, `configure_her`,
`configure_ddpg`, `configure_dims`); returns each request paired with its
response, together with the final process state. -/
def runCached [DecidableEq K] (mk : K → Nat → E) :
    List K → CacheState K E → List (K × E) × CacheState K E
  | [], s => ([], s)
  | k :: rest, s =>
    let r := cached_make_env mk k s
    let out := runCached mk rest r.2
    ((k, r.1) :: out.1, out.2)

/-! ## Concrete inputs for evaluation -/

/-- A policy that always returns the one-row zero action batch. -/
def constPolicy : Policy := fun _ _ _ _ _ _ _ _ _ => (.many [[0]], [0])

/-- Goal-conditioned environment whose every step raises
`MujocoException`. -/
def envFault : Env :=
  { resetObs := .dict [some 0] [0] [0], stepAt := fun _ _ => .fault }

/-- Goal-conditioned environment whose every step returns an observation
with a NaN entry. -/
def envNaN : Env :=
  { resetObs := .dict [some 0] [0] [0],
    stepAt := fun _ _ => .ok (.dict [none] [0]) 0 false default }

/-- A single-environment worker over the given environment, horizon 1. -/
def mkWorker1 (e : Env) : Worker :=
  { T := 1
    rollout_batch_size := 1
    dims_g := 1
    numInfo := 0
    exploit := false
    use_target_net := false
    compute_Q := false
    noise_eps := 0
    random_eps := 0
    history_len := 100
    policy := constPolicy
    envs := [e]
    success_history := []
    Q_history := []
    episode_length_history := []
    once_success_history := []
    return_history := []
    n_episodes := 0
    g := [[0]]
    initial_o := [[some 0]]
    initial_ag := [[0]] }


/-! ## Derived notions used to state the claims -/

/-- Column `i` of a time-major array: the per-timestep values recorded
for environment `i`. -/
def colD (tm : List (List α)) (i : Nat) (d : α) : List α :=
  tm.map fun row => row.getD i d

/-- Sum of a reward sequence restricted to the timesteps whose validity
flag is set. -/
def maskedSum (vs : List Bool) (rs : Vec) : ℚ :=
  (List.zipWith (fun v r => if v then r else 0) vs rs).sum

/-- Per-environment masked reward sums of a batch-major episode: for each
environment, the sum of its recorded rewards over the timesteps where its
recorded validity flag was set. -/
def maskedReturns (ep : EpisodeBM) (B : Nat) : Vec :=
  (List.range B).map fun i => maskedSum (ep.myv.getD i []) (ep.myr.getD i [])

/-- The goal row that resetting environment `i` writes (lines 56-63):
row `i` of the override array when one is supplied, the environment's own
sampled `desired_goal` otherwise, and a zero row on a non-dict
observation. -/
def resetGoalRow (w : Worker) (i : Nat) (gg : Option Mat) : Vec :=
  match (w.envs.getD i default).resetObs with
  | .dict _ _ dg =>
    match gg with
    | some G => G.getD i []
    | none => dg
  | .plain _ => List.replicate w.dims_g 0

/-- Well-formedness of a worker, as established by `__init__`
(lines 33 and 45-48): one environment per parallel rollout, buffers with
one row per rollout, and the black-box policy contract that the
(reshaped) action batch has one row per rollout. -/
structure WorkerWF (w : Worker) : Prop where
  envs_len : w.envs.length = w.rollout_batch_size
  g_len : w.g.length = w.rollout_batch_size
  io_len : w.initial_o.length = w.rollout_batch_size
  iag_len : w.initial_ag.length = w.rollout_batch_size
  policy_rows : ∀ o zz ag gm cq ne re utn ex,
    (reshapeU (w.policy o zz ag gm cq ne re utn ex).1).length = w.rollout_batch_size

/-- Two workers agreeing on everything except the `g`, `initial_o` and
`initial_ag` buffers (the only state `reset_rollout` writes). -/
structure SameCore (w w2 : Worker) : Prop where
  hT : w2.T = w.T
  hB : w2.rollout_batch_size = w.rollout_batch_size
  hdg : w2.dims_g = w.dims_g
  hni : w2.numInfo = w.numInfo
  hex : w2.exploit = w.exploit
  hutn : w2.use_target_net = w.use_target_net
  hcq : w2.compute_Q = w.compute_Q
  hne : w2.noise_eps = w.noise_eps
  hre : w2.random_eps = w.random_eps
  hhl : w2.history_len = w.history_len
  hpol : w2.policy = w.policy
  henvs : w2.envs = w.envs
  hsh : w2.success_history = w.success_history
  hqh : w2.Q_history = w.Q_history
  helh : w2.episode_length_history = w.episode_length_history
  hosh : w2.once_success_history = w.once_success_history
  hrh : w2.return_history = w.return_history
  hneps : w2.n_episodes = w.n_episodes

/-- Invariant of the timestep loop after `k` completed iterations. -/
structure LoopInv (w : Worker) (gfix z : Mat) (k : Nat) (s : LoopState) : Prop where
  o_len : s.o.length = w.rollout_batch_size
  ag_len : s.ag.length = w.rollout_batch_size
  obs_len : s.obs.length = k
  obs_rows : ∀ r ∈ s.obs, r.length = w.rollout_batch_size
  zs_eq : s.zs = List.replicate k z
  ach_len : s.achieved_goals.length = k
  ach_rows : ∀ r ∈ s.achieved_goals, r.length = w.rollout_batch_size
  acts_len : s.acts.length = k
  acts_rows : ∀ r ∈ s.acts, r.length = w.rollout_batch_size
  goals_eq : s.goals = List.replicate k gfix
  succ_len : s.successes.length = k
  succ_rows : ∀ r ∈ s.successes, r.length = w.rollout_batch_size
  rew_len : s.rewards.length = k
  rew_rows : ∀ r ∈ s.rewards, r.length = w.rollout_batch_size
  done_len : s.dones.length = k
  done_rows : ∀ r ∈ s.dones, r.length = w.rollout_batch_size
  val_len : s.valids.length = k
  val_rows : ∀ r ∈ s.valids, r.length = w.rollout_batch_size
  info_len : s.info_values.length = w.numInfo
  info_time : ∀ ch ∈ s.info_values, ch.length = k ∧ ∀ r ∈ ch, r.length = w.rollout_batch_size
  cur_len : s.cur_valid.length = w.rollout_batch_size
  lengths_len : s.lengths.length = w.rollout_batch_size
  once_len : s.once_successes.length = w.rollout_batch_size
  returns_len : s.returns.length = w.rollout_batch_size
  val_mono : ∀ i, List.Pairwise (fun a b => b = true → a = true) (colD s.valids i false)
  val_cur : ∀ i, s.cur_valid.getD i false = true → ∀ b ∈ colD s.valids i false, b = true
  ret_sum : ∀ i, s.returns.getD i 0 = maskedSum (colD s.valids i false) (colD s.rewards i 0)

/-- Shape contract of a completed batch-major episode (claim C2): `o` and
`ag` hold `T + 1` entries per environment, every other per-step field
holds `T`, and every field has one row per parallel rollout. -/
structure EpisodeShapeOK (ep : EpisodeBM) (T B nInfo : Nat) : Prop where
  o_batch : ep.o.length = B
  o_time : ∀ r ∈ ep.o, r.length = T + 1
  ag_batch : ep.ag.length = B
  ag_time : ∀ r ∈ ep.ag, r.length = T + 1
  z_batch : ep.z.length = B
  z_time : ∀ r ∈ ep.z, r.length = T
  u_batch : ep.u.length = B
  u_time : ∀ r ∈ ep.u, r.length = T
  g_batch : ep.g.length = B
  g_time : ∀ r ∈ ep.g, r.length = T
  myr_batch : ep.myr.length = B
  myr_time : ∀ r ∈ ep.myr, r.length = T
  myd_batch : ep.myd.length = B
  myd_time : ∀ r ∈ ep.myd, r.length = T
  myv_batch : ep.myv.length = B
  myv_time : ∀ r ∈ ep.myv, r.length = T
  info_count : ep.info.length = nInfo
  info_batch : ∀ ch ∈ ep.info, ch.length = B
  info_time : ∀ ch ∈ ep.info, ∀ r ∈ ch, r.length = T

/-- Monotone validity (claim C3): within each environment row of the
episode, once the recorded mask is false at some timestep it is false at
every later recorded timestep. -/
def ValidMaskMonotone (ep : EpisodeBM) : Prop :=
  ∀ r ∈ ep.myv, ∀ t1 t2, t1 < t2 → t2 < r.length →
    r.getD t1 false = false → r.getD t2 false = false

/-- Goal override (claim C6): every recorded desired-goal entry of
environment `i` equals row `i` of the supplied `generated_goal` array. -/
def GoalsOverridden (ep : EpisodeBM) (G : Mat) (B T : Nat) : Prop :=
  ∀ i < B, ep.g.getD i [] = List.replicate T (G.getD i [])

/-- Statistics frame effect of one completed call (claim C10): exactly
one scalar is pushed on each of the four always-updated windows, the Q
window is pushed exactly when `compute_Q` is set, and the episode counter
grows by the batch size. -/
def StatsPushed (w w2 : Worker) : Prop :=
  (∃ a, w2.success_history = dequePush w.history_len w.success_history a) ∧
  (∃ b, w2.once_success_history = dequePush w.history_len w.once_success_history b) ∧
  (∃ c, w2.return_history = dequePush w.history_len w.return_history c) ∧
  (∃ d, w2.episode_length_history = dequePush w.history_len w.episode_length_history d) ∧
  (w.compute_Q = true → ∃ q, w2.Q_history = dequePush w.history_len w.Q_history q) ∧
  (w.compute_Q = false → w2.Q_history = w.Q_history) ∧
  w2.n_episodes = w.n_episodes + w.rollout_batch_size

/-- The unprefixed statistic names emitted by `logs`, in order. -/
def logNames (w : Worker) : List String :=
  ["num_trajs", "success_rate", "once_success_rate", "return", "episode_length"] ++
    (if w.compute_Q then ["mean_Q"] else []) ++ ["episode"]

/-! ## Concrete inputs for witnesses and counterexamples -/

/-- Goal-conditioned environment that runs normally: a finite observation,
achieved goal 2, reward 1, done, and an `is_success`/`cur_step` info. -/
def envPlain : Env :=
  { resetObs := .dict [some 0] [0] [5],
    stepAt := fun _ _ => .ok (.dict [some 1] [2]) 1 true ⟨some 1, none, []⟩ }

/-- Single-environment worker over `envPlain`. -/
def wEx : Worker := mkWorker1 envPlain

/-- One completed `generate_rollouts` call on `wEx`, overriding the goal
with `[[7]]` and supplying the one-hot skill `[[1]]`. -/
def genEx : Except RErr (EpisodeBM × Worker) :=
  generate_rollouts 2 wEx (some [[7]]) (some [[1]]) false

/-- The episode produced by `genEx`. -/
def epEx : EpisodeBM :=
  match genEx with
  | .ok p => p.1
  | .error _ => default

/-- The worker state after `genEx`. -/
def wEx2 : Worker :=
  match genEx with
  | .ok p => p.2
  | .error _ => wEx

/-- A worker in exploit mode with non-trivial configured exploration. -/
def wExploit : Worker := { mkWorker1 envPlain with exploit := true, noise_eps := 2/10, random_eps := 3/10 }

/-- Tagging factory for the memoization claim: invocation `n` for key `k`
produces the distinct object `(k, n)`. -/
def mkTag : Nat → Nat → Nat × Nat := fun k n => (k, n)

/-- C1: at any timestep, a simulator-internal fault or a NaN observation
batch makes `generate_rollouts` retry via `self.generate_rollouts()` with
default arguments; since the default `z_s_onehot=False` has no `copy`
method, line 84 of the retried call raises `AttributeError`, so the
in-progress rollout is indeed discarded but no restarted rollout is ever
produced: the call fails instead of returning fault-free data.  Evaluated
on a single-environment worker with horizon 1 whose step faults
(respectively returns a NaN observation) at timestep 0, with ample fuel. -/
theorem C1_fault_retry_crashes :
    generate_rollouts 5 (mkWorker1 envFault) (some [[0]]) (some [[1]]) false
      = .error .attributeError ∧
    generate_rollouts 5 (mkWorker1 envNaN) (some [[0]]) (some [[1]]) false
      = .error .attributeError := by
  constructor <;> rfl

/-! ## Helper lemmas -/

theorem rangeMap_getD_lt {α} (n : Nat) (f : Nat → α) (i : Nat) (d : α) (h : i < n) :
    ((List.range n).map f).getD i d = f i := by
  simp [List.getD_eq_getElem?_getD, List.getElem?_map, List.getElem?_range, h]

theorem rangeMap_getD_ge {α} (n : Nat) (f : Nat → α) (i : Nat) (d : α) (h : n ≤ i) :
    ((List.range n).map f).getD i d = d := by
  apply List.getD_eq_default
  simpa using h

theorem replicate_getD_lt {α} (n : Nat) (a d : α) (i : Nat) (h : i < n) :
    (List.replicate n a).getD i d = a := by
  simp [List.getD_eq_getElem?_getD, List.getElem?_replicate, h]

theorem getD_default_of_le {α} (l : List α) (i : Nat) (d : α) (h : l.length ≤ i) :
    l.getD i d = d :=
  List.getD_eq_default l d h

theorem getD_mem_of_lt {α} (l : List α) (i : Nat) (d : α) (h : i < l.length) :
    l.getD i d ∈ l := by
  rw [List.getD_eq_getElem?_getD, List.getElem?_eq_getElem h]
  exact List.getElem_mem h

theorem colD_append {α} (tm tm2 : List (List α)) (i : Nat) (d : α) :
    colD (tm ++ tm2) i d = colD tm i d ++ colD tm2 i d := by
  simp [colD]

theorem colD_length {α} (tm : List (List α)) (i : Nat) (d : α) :
    (colD tm i d).length = tm.length := by
  simp [colD]

theorem maskedSum_append_one (vs : List Bool) (rs : Vec) (h : vs.length = rs.length)
    (v : Bool) (r : ℚ) :
    maskedSum (vs ++ [v]) (rs ++ [r]) = maskedSum vs rs + (if v then r else 0) := by
  unfold maskedSum
  rw [List.zipWith_append _ _ _ _ _ h, List.sum_append]
  simp

theorem sameCore_refl (w : Worker) : SameCore w w :=
  ⟨rfl, rfl, rfl, rfl, rfl, rfl, rfl, rfl, rfl, rfl, rfl, rfl, rfl, rfl, rfl, rfl, rfl, rfl⟩

theorem sameCore_trans {w w2 w3 : Worker} (h1 : SameCore w w2) (h2 : SameCore w2 w3) :
    SameCore w w3 :=
  ⟨h2.hT.trans h1.hT, h2.hB.trans h1.hB, h2.hdg.trans h1.hdg, h2.hni.trans h1.hni,
   h2.hex.trans h1.hex, h2.hutn.trans h1.hutn, h2.hcq.trans h1.hcq, h2.hne.trans h1.hne,
   h2.hre.trans h1.hre, h2.hhl.trans h1.hhl, h2.hpol.trans h1.hpol, h2.henvs.trans h1.henvs,
   h2.hsh.trans h1.hsh, h2.hqh.trans h1.hqh, h2.helh.trans h1.helh, h2.hosh.trans h1.hosh,
   h2.hrh.trans h1.hrh, h2.hneps.trans h1.hneps⟩

theorem reset_rollout_core (w : Worker) (i : Nat) (gg : Option Mat) :
    SameCore w (reset_rollout w i gg) := by
  unfold reset_rollout
  split <;>
    exact ⟨rfl, rfl, rfl, rfl, rfl, rfl, rfl, rfl, rfl, rfl, rfl, rfl, rfl, rfl, rfl, rfl, rfl, rfl⟩

theorem reset_rollout_buflen (w : Worker) (i : Nat) (gg : Option Mat) :
    (reset_rollout w i gg).g.length = w.g.length ∧
    (reset_rollout w i gg).initial_o.length = w.initial_o.length ∧
    (reset_rollout w i gg).initial_ag.length = w.initial_ag.length := by
  unfold reset_rollout
  split <;> exact ⟨List.length_set .., ⟨List.length_set .., List.length_set ..⟩⟩

theorem foldl_reset_core (gg : Option Mat) (l : List Nat) :
    ∀ w : Worker, SameCore w (l.foldl (fun w2 i => reset_rollout w2 i gg) w) := by
  induction l with
  | nil => exact fun w => sameCore_refl w
  | cons i rest ih =>
    intro w
    exact sameCore_trans (reset_rollout_core w i gg) (ih (reset_rollout w i gg))

theorem foldl_reset_buflen (gg : Option Mat) (l : List Nat) :
    ∀ w : Worker,
      (l.foldl (fun w2 i => reset_rollout w2 i gg) w).g.length = w.g.length ∧
      (l.foldl (fun w2 i => reset_rollout w2 i gg) w).initial_o.length = w.initial_o.length ∧
      (l.foldl (fun w2 i => reset_rollout w2 i gg) w).initial_ag.length = w.initial_ag.length := by
  induction l with
  | nil => exact fun w => ⟨rfl, rfl, rfl⟩
  | cons i rest ih =>
    intro w
    obtain ⟨h1, h2, h3⟩ := ih (reset_rollout w i gg)
    obtain ⟨g1, g2, g3⟩ := reset_rollout_buflen w i gg
    exact ⟨h1.trans g1, h2.trans g2, h3.trans g3⟩

theorem reset_all_core (w : Worker) (gg : Option Mat) :
    SameCore w (reset_all_rollouts w gg) :=
  foldl_reset_core gg (List.range w.rollout_batch_size) w

theorem reset_all_wf {w : Worker} (gg : Option Mat) (hw : WorkerWF w) :
    WorkerWF (reset_all_rollouts w gg) := by
  have hc := reset_all_core w gg
  obtain ⟨h1, h2, h3⟩ := foldl_reset_buflen gg (List.range w.rollout_batch_size) w
  refine ⟨?_, ?_, ?_, ?_, ?_⟩
  · rw [hc.henvs, hc.hB]; exact hw.envs_len
  · rw [hc.hB]; exact h1.trans hw.g_len
  · rw [hc.hB]; exact h2.trans hw.io_len
  · rw [hc.hB]; exact h3.trans hw.iag_len
  · intro o zz ag gm cq ne re utn ex
    rw [hc.hpol, hc.hB]
    exact hw.policy_rows o zz ag gm cq ne re utn ex

theorem getD_set_self {α} (l : List α) (i : Nat) (a d : α) (h : i < l.length) :
    (l.set i a).getD i d = a := by
  simp [List.getD_eq_getElem?_getD, List.getElem?_set, h]

theorem getD_set_ne {α} (l : List α) (i j : Nat) (a d : α) (h : i ≠ j) :
    (l.set i a).getD j d = l.getD j d := by
  simp [List.getD_eq_getElem?_getD, List.getElem?_set, h]

theorem resetGoalRow_congr {w wn : Worker} (h : SameCore w wn) (j : Nat) (gg : Option Mat) :
    resetGoalRow wn j gg = resetGoalRow w j gg := by
  unfold resetGoalRow
  rw [h.henvs, h.hdg]

theorem reset_rollout_g_getD_self (w : Worker) (j : Nat) (gg : Option Mat)
    (h : j < w.g.length) :
    (reset_rollout w j gg).g.getD j [] = resetGoalRow w j gg := by
  unfold reset_rollout resetGoalRow
  split
  · exact getD_set_self _ _ _ _ h
  · exact getD_set_self _ _ _ _ h

theorem reset_rollout_g_getD_ne (w : Worker) (j i : Nat) (gg : Option Mat) (h : j ≠ i) :
    (reset_rollout w j gg).g.getD i [] = w.g.getD i [] := by
  unfold reset_rollout
  split
  · exact getD_set_ne _ _ _ _ _ h
  · exact getD_set_ne _ _ _ _ _ h

theorem foldl_reset_g_getD (gg : Option Mat) :
    ∀ (n : Nat) (w : Worker), n ≤ w.g.length → ∀ i < n,
      ((List.range n).foldl (fun w2 j => reset_rollout w2 j gg) w).g.getD i [] =
        resetGoalRow w i gg := by
  intro n
  induction n with
  | zero => intro w _ i hi; omega
  | succ m ih =>
    intro w hlen i hi
    rw [List.range_succ, List.foldl_append, List.foldl_cons, List.foldl_nil]
    set wm := (List.range m).foldl (fun w2 j => reset_rollout w2 j gg) w with hwm
    have hcore : SameCore w wm := foldl_reset_core gg (List.range m) w
    have hglen : wm.g.length = w.g.length := (foldl_reset_buflen gg (List.range m) w).1
    rcases Nat.lt_or_ge i m with him | him
    · rw [reset_rollout_g_getD_ne wm m i gg (by omega)]
      exact ih w (by omega) i him
    · have him2 : i = m := by omega
      subst him2
      rw [reset_rollout_g_getD_self wm i gg (by omega)]
      exact resetGoalRow_congr hcore i gg

theorem reset_all_g_getD (w : Worker) (gg : Option Mat)
    (hg : w.g.length = w.rollout_batch_size) (i : Nat) (hi : i < w.rollout_batch_size) :
    (reset_all_rollouts w gg).g.getD i [] = resetGoalRow w i gg :=
  foldl_reset_g_getD gg w.rollout_batch_size w (by omega) i hi

theorem default_bool_eq : (default : Bool) = false := rfl

theorem default_rat_eq : (default : ℚ) = 0 := rfl

theorem transposeTM_length {α} [Inhabited α] (tm : List (List α)) :
    (transposeTM tm).length = (tm.headD []).length := by
  simp [transposeTM]

theorem transposeTM_rows {α} [Inhabited α] (tm : List (List α)) :
    ∀ r ∈ transposeTM tm, r.length = tm.length := by
  intro r hr
  obtain ⟨i, _, rfl⟩ := List.mem_map.mp hr
  simp [colD]

theorem transposeTM_getD_lt {α} [Inhabited α] (tm : List (List α)) (i : Nat)
    (h : i < (tm.headD []).length) :
    (transposeTM tm).getD i [] = colD tm i default :=
  rangeMap_getD_lt _ _ _ _ h

theorem transposeTM_getD_ge {α} [Inhabited α] (tm : List (List α)) (i : Nat)
    (h : (tm.headD []).length ≤ i) :
    (transposeTM tm).getD i [] = [] :=
  rangeMap_getD_ge _ _ _ _ h

theorem headD_length_of_rows {α} (tm : List (List α)) (B : Nat) (hne : tm ≠ [])
    (hrows : ∀ r ∈ tm, r.length = B) : (tm.headD []).length = B := by
  cases tm with
  | nil => exact absurd rfl hne
  | cons a l => exact hrows a (List.mem_cons_self a l)

theorem initLoopState_inv (w1 : Worker) (z : Mat) (hw : WorkerWF w1) :
    LoopInv w1 w1.g z 0 (initLoopState w1) := by
  refine
    { o_len := hw.io_len
      ag_len := hw.iag_len
      obs_len := rfl
      obs_rows := by simp [initLoopState]
      zs_eq := rfl
      ach_len := rfl
      ach_rows := by simp [initLoopState]
      acts_len := rfl
      acts_rows := by simp [initLoopState]
      goals_eq := rfl
      succ_len := rfl
      succ_rows := by simp [initLoopState]
      rew_len := rfl
      rew_rows := by simp [initLoopState]
      done_len := rfl
      done_rows := by simp [initLoopState]
      val_len := rfl
      val_rows := by simp [initLoopState]
      info_len := by simp [initLoopState]
      info_time := by
        intro ch hch
        simp only [initLoopState] at hch
        rw [List.eq_of_mem_replicate hch]
        exact ⟨rfl, by simp⟩
      cur_len := by simp [initLoopState]
      lengths_len := by simp [initLoopState]
      once_len := by simp [initLoopState]
      returns_len := by simp [initLoopState]
      val_mono := by simp [initLoopState, colD]
      val_cur := by simp [initLoopState, colD]
      ret_sum := ?_ }
  intro i
  simp only [initLoopState, colD, List.map_nil, maskedSum, List.zipWith_nil_right, List.sum_nil]
  rcases Nat.lt_or_ge i w1.rollout_batch_size with hi | hi
  · rw [replicate_getD_lt _ _ _ _ hi]
  · rw [getD_default_of_le _ _ _ (by simpa using hi)]

theorem runStep_ok_inv {w : Worker} {gfix z : Mat} {ra : Bool} {t : Nat} {s s' : LoopState}
    (hp : ∀ o zz ag gm cq ne re utn ex,
      (reshapeU (w.policy o zz ag gm cq ne re utn ex).1).length = w.rollout_batch_size)
    (h : runStep w gfix z ra t s = .ok s') {k : Nat} (hs : LoopInv w gfix z k s) :
    LoopInv w gfix z (k + 1) s' := by
  simp only [runStep] at h
  split at h
  · exact absurd h (by simp)
  · split at h
    · exact absurd h (by simp)
    · injection h with h
      subst h
      refine
        { o_len := by simp [newONew]
          ag_len := by simp [newAgNew]
          obs_len := by simp [hs.obs_len]
          obs_rows := ?_
          zs_eq := by rw [hs.zs_eq]; exact (List.replicate_succ' k z).symm
          ach_len := by simp [hs.ach_len]
          ach_rows := ?_
          acts_len := by simp [hs.acts_len]
          acts_rows := ?_
          goals_eq := by rw [hs.goals_eq]; exact (List.replicate_succ' k gfix).symm
          succ_len := by simp [hs.succ_len]
          succ_rows := ?_
          rew_len := by simp [hs.rew_len]
          rew_rows := ?_
          done_len := by simp [hs.done_len]
          done_rows := ?_
          val_len := by simp [hs.val_len]
          val_rows := ?_
          info_len := by simp [newInfoValues]
          info_time := ?_
          cur_len := by simp [newCurValid]
          lengths_len := by simp [newLengths]
          once_len := by simp [newOnce]
          returns_len := by simp [newReturns]
          val_mono := ?_
          val_cur := ?_
          ret_sum := ?_ }
      · intro r hr
        rcases List.mem_append.mp hr with hr | hr
        · exact hs.obs_rows r hr
        · rw [List.mem_singleton.mp hr]; exact hs.o_len
      · intro r hr
        rcases List.mem_append.mp hr with hr | hr
        · exact hs.ach_rows r hr
        · rw [List.mem_singleton.mp hr]; exact hs.ag_len
      · intro r hr
        rcases List.mem_append.mp hr with hr | hr
        · exact hs.acts_rows r hr
        · rw [List.mem_singleton.mp hr]; exact hp _ _ _ _ _ _ _ _ _
      · intro r hr
        rcases List.mem_append.mp hr with hr | hr
        · exact hs.succ_rows r hr
        · rw [List.mem_singleton.mp hr]; simp [newSuccess]
      · intro r hr
        rcases List.mem_append.mp hr with hr | hr
        · exact hs.rew_rows r hr
        · rw [List.mem_singleton.mp hr]; simp [newReward]
      · intro r hr
        rcases List.mem_append.mp hr with hr | hr
        · exact hs.done_rows r hr
        · rw [List.mem_singleton.mp hr]; simp [newDone]
      · intro r hr
        rcases List.mem_append.mp hr with hr | hr
        · exact hs.val_rows r hr
        · rw [List.mem_singleton.mp hr]; exact hs.cur_len
      · intro ch hch
        simp only [newInfoValues] at hch
        obtain ⟨kk, hkk, rfl⟩ := List.mem_map.mp hch
        have hkk2 : kk < s.info_values.length := by
          rw [hs.info_len]; exact List.mem_range.mp hkk
        have hmem := getD_mem_of_lt s.info_values kk [] hkk2
        obtain ⟨hlen, hrows⟩ := hs.info_time _ hmem
        constructor
        · simp only [List.length_append, List.length_singleton, hlen]
        · intro r hr
          rcases List.mem_append.mp hr with hr | hr
          · exact hrows r hr
          · rw [List.mem_singleton.mp hr]; simp
      · intro i
        rw [colD_append]
        have hsing : colD [s.cur_valid] i false = [s.cur_valid.getD i false] := by
          simp [colD]
        rw [hsing, List.pairwise_append]
        refine ⟨hs.val_mono i, List.pairwise_singleton _ _, ?_⟩
        intro a ha b hb hbt
        rw [List.mem_singleton.mp hb] at hbt
        exact hs.val_cur i hbt a ha
      · intro i hcur b hb
        rcases Nat.lt_or_ge i w.rollout_batch_size with hi | hi
        · rw [newCurValid, rangeMap_getD_lt _ _ _ _ hi] at hcur
          have hold : s.cur_valid.getD i false = true := by
            by_cases hd : (newDone w (stepResults w t
                (reshapeU (w.policy s.o z s.ag gfix w.compute_Q (noiseEpsPassed w)
                  (randomEpsPassed w ra) w.use_target_net w.exploit).1))).getD i false
            · rw [if_pos hd] at hcur; exact absurd hcur (by simp)
            · rwa [if_neg hd] at hcur
          rw [colD_append] at hb
          rcases List.mem_append.mp hb with hb | hb
          · exact hs.val_cur i hold b hb
          · have : colD [s.cur_valid] i false = [s.cur_valid.getD i false] := by simp [colD]
            rw [this, List.mem_singleton] at hb
            rw [hb]; exact hold
        · rw [newCurValid, rangeMap_getD_ge _ _ _ _ hi] at hcur
          exact absurd hcur (by simp)
      · intro i
        rw [colD_append, colD_append]
        have hv : colD [s.cur_valid] i false = [s.cur_valid.getD i false] := by simp [colD]
        have hrw : ∀ cr : Vec, colD [cr] i 0 = [cr.getD i 0] := by intro cr; simp [colD]
        rw [hv, hrw]
        rw [maskedSum_append_one _ _ (by rw [colD_length, colD_length, hs.val_len, hs.rew_len])]
        rw [← hs.ret_sum i]
        rcases Nat.lt_or_ge i w.rollout_batch_size with hi | hi
        · rw [newReturns, rangeMap_getD_lt _ _ _ _ hi]
          by_cases hc : s.cur_valid.getD i false
          · rw [if_pos hc, if_pos hc]
          · rw [if_neg hc, if_neg (by simpa using hc), add_zero]
        · rw [newReturns, rangeMap_getD_ge _ _ _ _ hi]
          have hr0 : s.returns.getD i 0 = 0 :=
            getD_default_of_le _ _ _ (by rw [hs.returns_len]; exact hi)
          have hc0 : s.cur_valid.getD i false = false :=
            getD_default_of_le _ _ _ (by rw [hs.cur_len]; exact hi)
          rw [hr0, hc0, if_neg (by simp), add_zero]

theorem runLoop_done_inv {w : Worker} {gfix z : Mat} {ra : Bool}
    (hp : ∀ o zz ag gm cq ne re utn ex,
      (reshapeU (w.policy o zz ag gm cq ne re utn ex).1).length = w.rollout_batch_size) :
    ∀ (n t : Nat) (s s' : LoopState), runLoop w gfix z ra t n s = .done s' →
      ∀ k, LoopInv w gfix z k s → LoopInv w gfix z (k + n) s' := by
  intro n
  induction n with
  | zero =>
    intro t s s' h k hs
    unfold runLoop at h
    injection h with h
    subst h
    exact hs
  | succ m ih =>
    intro t s s' h k hs
    unfold runLoop at h
    cases hst : runStep w gfix z ra t s with
    | fault => rw [hst] at h; exact absurd h (by simp)
    | nanObs => rw [hst] at h; exact absurd h (by simp)
    | ok s1 =>
      rw [hst] at h
      have hres := ih (t + 1) s1 s' h (k + 1) (runStep_ok_inv hp hst hs)
      have heq : k + 1 + m = k + (m + 1) := by omega
      rwa [heq] at hres

theorem gen_none_not_ok (fuel : Nat) (w : Worker) (gg : Option Mat) (ra : Bool)
    (p : EpisodeBM × Worker) : generate_rollouts fuel w gg none ra ≠ .ok p := by
  cases fuel <;> simp [generate_rollouts]

theorem gen_ok_elim {fuel : Nat} {w : Worker} {gg : Option Mat} {z : Mat} {ra : Bool}
    {ep : EpisodeBM} {w2 : Worker}
    (h : generate_rollouts (fuel + 1) w gg (some z) ra = .ok (ep, w2)) :
    ∃ s, runLoop (reset_all_rollouts w gg) (reset_all_rollouts w gg).g z ra 0
        (reset_all_rollouts w gg).T (initLoopState (reset_all_rollouts w gg)) = .done s ∧
      (ep, w2) = finishRollout (reset_all_rollouts w gg) s := by
  have h' : (match runLoop (reset_all_rollouts w gg) (reset_all_rollouts w gg).g z ra 0
      (reset_all_rollouts w gg).T (initLoopState (reset_all_rollouts w gg)) with
    | .fault => generate_rollouts fuel (reset_all_rollouts w gg) none none false
    | .nanObs =>
      generate_rollouts fuel (reset_all_rollouts (reset_all_rollouts w gg) none) none none false
    | .done s => .ok (finishRollout (reset_all_rollouts w gg) s)) = .ok (ep, w2) := h
  cases hr : runLoop (reset_all_rollouts w gg) (reset_all_rollouts w gg).g z ra 0
      (reset_all_rollouts w gg).T (initLoopState (reset_all_rollouts w gg)) with
  | fault =>
    rw [hr] at h'
    exact absurd h' (gen_none_not_ok fuel (reset_all_rollouts w gg) none false (ep, w2))
  | nanObs =>
    rw [hr] at h'
    exact absurd h'
      (gen_none_not_ok fuel (reset_all_rollouts (reset_all_rollouts w gg) none) none false (ep, w2))
  | done s =>
    rw [hr] at h'
    injection h' with h'
    exact ⟨s, rfl, h'.symm⟩

theorem finishRollout_fst (w1 : Worker) (s : LoopState) :
    (finishRollout w1 s).1 = convertEpisodeToBatchMajor
      ⟨s.obs ++ [s.o], s.zs, s.acts, s.goals, s.achieved_goals ++ [s.ag],
       s.rewards, s.dones, s.valids, s.info_values⟩ := rfl

theorem finishRollout_snd (w1 : Worker) (s : LoopState) :
    (finishRollout w1 s).2 = { w1 with
      initial_o := s.o
      success_history := dequePush w1.history_len w1.success_history
        (npMean (s.successes.getLastD (List.replicate w1.rollout_batch_size 0)))
      once_success_history := dequePush w1.history_len w1.once_success_history
        (npMean s.once_successes)
      return_history := dequePush w1.history_len w1.return_history (npMean s.returns)
      episode_length_history := dequePush w1.history_len w1.episode_length_history
        (npMeanInt s.lengths)
      Q_history := if w1.compute_Q then dequePush w1.history_len w1.Q_history (npMeanFlat s.Qs)
        else w1.Q_history
      n_episodes := w1.n_episodes + w1.rollout_batch_size } := rfl

theorem finishRollout_fst_o (w1 : Worker) (s : LoopState) :
    (finishRollout w1 s).1.o = transposeTM (s.obs ++ [s.o]) := rfl

theorem finishRollout_fst_ag (w1 : Worker) (s : LoopState) :
    (finishRollout w1 s).1.ag = transposeTM (s.achieved_goals ++ [s.ag]) := rfl

theorem finishRollout_fst_z (w1 : Worker) (s : LoopState) :
    (finishRollout w1 s).1.z = transposeTM s.zs := rfl

theorem finishRollout_fst_u (w1 : Worker) (s : LoopState) :
    (finishRollout w1 s).1.u = transposeTM s.acts := rfl

theorem finishRollout_fst_g (w1 : Worker) (s : LoopState) :
    (finishRollout w1 s).1.g = transposeTM s.goals := rfl

theorem finishRollout_fst_myr (w1 : Worker) (s : LoopState) :
    (finishRollout w1 s).1.myr = transposeTM s.rewards := rfl

theorem finishRollout_fst_myd (w1 : Worker) (s : LoopState) :
    (finishRollout w1 s).1.myd = transposeTM s.dones := rfl

theorem finishRollout_fst_myv (w1 : Worker) (s : LoopState) :
    (finishRollout w1 s).1.myv = transposeTM s.valids := rfl

theorem finishRollout_fst_info (w1 : Worker) (s : LoopState) :
    (finishRollout w1 s).1.info = s.info_values.map transposeTM := rfl

theorem finishRollout_snd_success (w1 : Worker) (s : LoopState) :
    (finishRollout w1 s).2.success_history = dequePush w1.history_len w1.success_history
      (npMean (s.successes.getLastD (List.replicate w1.rollout_batch_size 0))) := rfl

theorem finishRollout_snd_once (w1 : Worker) (s : LoopState) :
    (finishRollout w1 s).2.once_success_history =
      dequePush w1.history_len w1.once_success_history (npMean s.once_successes) := rfl

theorem finishRollout_snd_return (w1 : Worker) (s : LoopState) :
    (finishRollout w1 s).2.return_history =
      dequePush w1.history_len w1.return_history (npMean s.returns) := rfl

theorem finishRollout_snd_eplen (w1 : Worker) (s : LoopState) :
    (finishRollout w1 s).2.episode_length_history =
      dequePush w1.history_len w1.episode_length_history (npMeanInt s.lengths) := rfl

theorem finishRollout_snd_Q (w1 : Worker) (s : LoopState) :
    (finishRollout w1 s).2.Q_history =
      (if w1.compute_Q then dequePush w1.history_len w1.Q_history (npMeanFlat s.Qs)
       else w1.Q_history) := rfl

theorem finishRollout_snd_neps (w1 : Worker) (s : LoopState) :
    (finishRollout w1 s).2.n_episodes = w1.n_episodes + w1.rollout_batch_size := rfl

/-- C10: every `generate_rollouts` call that completes without a fault
restart pushes exactly one scalar on the success, once-success, return
and episode-length windows, pushes on the Q window exactly when
`compute_Q` is set, and advances `n_episodes` by `rollout_batch_size`
(lines 202-211); no other statistics state changes. -/
theorem C10_stats_frame {fuel : Nat} {w : Worker} {gg : Option Mat} {z : Mat} {ra : Bool}
    {ep : EpisodeBM} {w2 : Worker}
    (h : generate_rollouts (fuel + 1) w gg (some z) ra = .ok (ep, w2)) :
    StatsPushed w w2 := by
  obtain ⟨s, _, hfin⟩ := gen_ok_elim h
  have hc := reset_all_core w gg
  have hw2 : w2 = (finishRollout (reset_all_rollouts w gg) s).2 := congrArg Prod.snd hfin
  unfold StatsPushed
  refine ⟨?_, ?_, ?_, ?_, ?_, ?_, ?_⟩
  · exact ⟨_, by rw [hw2, finishRollout_snd_success, hc.hhl, hc.hsh]⟩
  · exact ⟨_, by rw [hw2, finishRollout_snd_once, hc.hhl, hc.hosh]⟩
  · exact ⟨_, by rw [hw2, finishRollout_snd_return, hc.hhl, hc.hrh]⟩
  · exact ⟨_, by rw [hw2, finishRollout_snd_eplen, hc.hhl, hc.helh]⟩
  · intro hcq
    refine ⟨npMeanFlat s.Qs, ?_⟩
    rw [hw2, finishRollout_snd_Q, hc.hcq, hcq, if_pos rfl, hc.hhl, hc.hqh]
  · intro hcq
    rw [hw2, finishRollout_snd_Q, hc.hcq, hcq, if_neg (by simp), hc.hqh]
  · rw [hw2, finishRollout_snd_neps, hc.hneps, hc.hB]

theorem ext_getD {α} (l1 l2 : List α) (d : α) (hlen : l1.length = l2.length)
    (h : ∀ i, i < l1.length → l1.getD i d = l2.getD i d) : l1 = l2 := by
  apply List.ext_getElem hlen
  intro i h1 h2
  have h3 := h i h1
  rw [List.getD_eq_getElem?_getD, List.getD_eq_getElem?_getD,
    List.getElem?_eq_getElem h1, List.getElem?_eq_getElem h2] at h3
  simpa using h3

theorem ne_nil_of_len {α} (l : List α) (n : Nat) (h : l.length = n) (hn : 0 < n) :
    l ≠ [] := by
  intro hnil
  rw [hnil] at h
  simp at h
  omega

theorem transpose_shape {α} [Inhabited α] (tm : List (List α)) (T B : Nat)
    (hlen : tm.length = T) (hne : tm ≠ []) (hrows : ∀ r ∈ tm, r.length = B) :
    (transposeTM tm).length = B ∧ ∀ r ∈ transposeTM tm, r.length = T := by
  constructor
  · rw [transposeTM_length, headD_length_of_rows tm B hne hrows]
  · intro r hr
    rw [transposeTM_rows tm r hr, hlen]

theorem pairwise_imp_getD (l : List Bool)
    (hpw : List.Pairwise (fun a b => b = true → a = true) l)
    (t1 t2 : Nat) (h12 : t1 < t2) (h2 : t2 < l.length)
    (h1 : l.getD t1 false = false) : l.getD t2 false = false := by
  have hb1 : t1 < l.length := Nat.lt_trans h12 h2
  have hR := List.pairwise_iff_getElem.mp hpw t1 t2 hb1 h2 h12
  rw [List.getD_eq_getElem?_getD, List.getElem?_eq_getElem h2]
  rw [List.getD_eq_getElem?_getD, List.getElem?_eq_getElem hb1] at h1
  simp only [Option.getD_some] at h1 ⊢
  cases hx : l[t2]
  · rfl
  · exact absurd (hR hx) (by rw [h1]; simp)

/-- C4: for every environment of a completed rollout, the accumulated
return equals the sum of that environment's recorded rewards over exactly
the timesteps where its recorded validity flag was set (lines 140-141 and
164-178), and the scalar appended to the return window is the batch mean
of these accumulated returns (line 207). -/
theorem C4_masked_return {fuel : Nat} {w : Worker} {gg : Option Mat} {z : Mat} {ra : Bool}
    {ep : EpisodeBM} {w2 : Worker} (hw : WorkerWF w) (hT : 0 < w.T)
    (h : generate_rollouts (fuel + 1) w gg (some z) ra = .ok (ep, w2)) :
    w2.return_history = dequePush w.history_len w.return_history
      (npMean (maskedReturns ep w.rollout_batch_size)) := by
  obtain ⟨s, hr, hfin⟩ := gen_ok_elim h
  set w1 := reset_all_rollouts w gg with hw1def
  have hc := reset_all_core w gg
  have hwf1 := reset_all_wf gg hw
  have hinv := runLoop_done_inv hwf1.policy_rows w1.T 0 _ s hr 0 (initLoopState_inv w1 z hwf1)
  rw [Nat.zero_add] at hinv
  have hep : ep = (finishRollout w1 s).1 := congrArg Prod.fst hfin
  have hvne : s.valids ≠ [] :=
    ne_nil_of_len _ w.T (hinv.val_len.trans hc.hT) hT
  have hrne : s.rewards ≠ [] :=
    ne_nil_of_len _ w.T (hinv.rew_len.trans hc.hT) hT
  have hvB : (s.valids.headD []).length = w.rollout_batch_size :=
    headD_length_of_rows _ _ hvne (fun r hrm => (hinv.val_rows r hrm).trans hc.hB)
  have hrB : (s.rewards.headD []).length = w.rollout_batch_size :=
    headD_length_of_rows _ _ hrne (fun r hrm => (hinv.rew_rows r hrm).trans hc.hB)
  have hkey : s.returns = maskedReturns ep w.rollout_batch_size := by
    apply ext_getD _ _ 0
    · rw [hinv.returns_len, hc.hB]
      simp [maskedReturns]
    · intro i hi
      rw [hinv.returns_len, hc.hB] at hi
      rw [maskedReturns, rangeMap_getD_lt _ _ _ _ hi]
      rw [hep, finishRollout_fst_myv, finishRollout_fst_myr]
      rw [transposeTM_getD_lt _ _ (by rw [hvB]; exact hi)]
      rw [transposeTM_getD_lt _ _ (by rw [hrB]; exact hi)]
      exact hinv.ret_sum i
  have hw2 : w2 = (finishRollout w1 s).2 := congrArg Prod.snd hfin
  rw [hw2, finishRollout_snd_return, hc.hhl, hc.hrh, hkey]

/-- C3: within any single completed rollout, each environment's recorded
validity mask is monotonically non-increasing over timesteps: the mask is
copied before the end-of-step invalidation (lines 167 and 176-178), and an
invalidated environment is never revalidated. -/
theorem C3_valid_monotone {fuel : Nat} {w : Worker} {gg : Option Mat} {z : Mat} {ra : Bool}
    {ep : EpisodeBM} {w2 : Worker} (hw : WorkerWF w)
    (h : generate_rollouts (fuel + 1) w gg (some z) ra = .ok (ep, w2)) :
    ValidMaskMonotone ep := by
  obtain ⟨s, hr, hfin⟩ := gen_ok_elim h
  set w1 := reset_all_rollouts w gg with hw1def
  have hwf1 := reset_all_wf gg hw
  have hinv := runLoop_done_inv hwf1.policy_rows w1.T 0 _ s hr 0 (initLoopState_inv w1 z hwf1)
  rw [Nat.zero_add] at hinv
  have hep : ep = (finishRollout w1 s).1 := congrArg Prod.fst hfin
  intro r hrm t1 t2 ht12 ht2 h1
  rw [hep, finishRollout_fst_myv] at hrm
  obtain ⟨i, _, rfl⟩ := List.mem_map.mp hrm
  have hpw : List.Pairwise (fun a b => b = true → a = true)
      (s.valids.map fun row => row.getD i default) := hinv.val_mono i
  exact pairwise_imp_getD _ hpw t1 t2 ht12 ht2 h1

/-- C6: with a `generated_goal` array supplied on goal-conditioned
environments, every recorded desired-goal entry of environment `i` over
the whole rollout equals row `i` of the array, which replaces the goal
the environment sampled at reset (lines 57-59 and 172). -/
theorem C6_goal_override {fuel : Nat} {w : Worker} {G z : Mat} {ra : Bool}
    {ep : EpisodeBM} {w2 : Worker} (hw : WorkerWF w) (hT : 0 < w.T)
    (hdict : ∀ i, i < w.rollout_batch_size → ∃ ob agv dg,
      (w.envs.getD i default).resetObs = .dict ob agv dg)
    (h : generate_rollouts (fuel + 1) w (some G) (some z) ra = .ok (ep, w2)) :
    GoalsOverridden ep G w.rollout_batch_size w.T := by
  obtain ⟨s, hr, hfin⟩ := gen_ok_elim h
  set w1 := reset_all_rollouts w (some G) with hw1def
  have hc := reset_all_core w (some G)
  have hwf1 := reset_all_wf (some G) hw
  have hinv := runLoop_done_inv hwf1.policy_rows w1.T 0 _ s hr 0 (initLoopState_inv w1 z hwf1)
  rw [Nat.zero_add] at hinv
  have hep : ep = (finishRollout w1 s).1 := congrArg Prod.fst hfin
  intro i hi
  have hg1 : w1.g.length = w.rollout_batch_size := hwf1.g_len.trans hc.hB
  have hgne : List.replicate w1.T w1.g ≠ [] := by
    apply ne_nil_of_len _ w.T _ hT
    rw [List.length_replicate, hc.hT]
  have hhead : ((List.replicate w1.T w1.g).headD []).length = w.rollout_batch_size :=
    headD_length_of_rows _ _ hgne
      (fun r hrm => by rw [List.eq_of_mem_replicate hrm]; exact hg1)
  rw [hep, finishRollout_fst_g, hinv.goals_eq]
  rw [transposeTM_getD_lt _ _ (by rw [hhead]; exact hi)]
  unfold colD
  rw [List.map_replicate, hc.hT]
  congr 1
  have hrow := reset_all_g_getD w (some G) hw.g_len i hi
  show w1.g.getD i [] = G.getD i []
  rw [hrow]
  unfold resetGoalRow
  obtain ⟨ob, agv, dg, hob⟩ := hdict i hi
  rw [hob]

/-- C2: every completed rollout yields a batch-major episode whose `o`
and `ag` fields hold `T + 1` entries per environment (lines 164, 169,
182-183), whose other per-step fields hold `T` entries, and whose every
field has one row per parallel rollout (lines 87-99 and 188-200 followed
by the batch-major conversion). -/
theorem C2_episode_shape {fuel : Nat} {w : Worker} {gg : Option Mat} {z : Mat} {ra : Bool}
    {ep : EpisodeBM} {w2 : Worker} (hw : WorkerWF w) (hT : 0 < w.T)
    (hz : z.length = w.rollout_batch_size)
    (h : generate_rollouts (fuel + 1) w gg (some z) ra = .ok (ep, w2)) :
    EpisodeShapeOK ep w.T w.rollout_batch_size w.numInfo := by
  obtain ⟨s, hr, hfin⟩ := gen_ok_elim h
  set w1 := reset_all_rollouts w gg with hw1def
  have hc := reset_all_core w gg
  have hwf1 := reset_all_wf gg hw
  have hinv := runLoop_done_inv hwf1.policy_rows w1.T 0 _ s hr 0 (initLoopState_inv w1 z hwf1)
  rw [Nat.zero_add] at hinv
  have hep : ep = (finishRollout w1 s).1 := congrArg Prod.fst hfin
  have hobs_len : (s.obs ++ [s.o]).length = w.T + 1 := by
    rw [List.length_append, List.length_singleton, hinv.obs_len, hc.hT]
  have hobs_rows : ∀ r ∈ s.obs ++ [s.o], r.length = w.rollout_batch_size := by
    intro r hrm
    rcases List.mem_append.mp hrm with hrm | hrm
    · exact (hinv.obs_rows r hrm).trans hc.hB
    · rw [List.mem_singleton.mp hrm]; exact hinv.o_len.trans hc.hB
  have ho := transpose_shape _ _ _ hobs_len
    (ne_nil_of_len _ _ hobs_len (by omega)) hobs_rows
  have hag_len : (s.achieved_goals ++ [s.ag]).length = w.T + 1 := by
    rw [List.length_append, List.length_singleton, hinv.ach_len, hc.hT]
  have hag_rows : ∀ r ∈ s.achieved_goals ++ [s.ag], r.length = w.rollout_batch_size := by
    intro r hrm
    rcases List.mem_append.mp hrm with hrm | hrm
    · exact (hinv.ach_rows r hrm).trans hc.hB
    · rw [List.mem_singleton.mp hrm]; exact hinv.ag_len.trans hc.hB
  have hagt := transpose_shape _ _ _ hag_len
    (ne_nil_of_len _ _ hag_len (by omega)) hag_rows
  have hzs_len : s.zs.length = w.T := by rw [hinv.zs_eq, List.length_replicate, hc.hT]
  have hzs_rows : ∀ r ∈ s.zs, r.length = w.rollout_batch_size := by
    intro r hrm
    rw [hinv.zs_eq] at hrm
    rw [List.eq_of_mem_replicate hrm]
    exact hz
  have hzt := transpose_shape _ _ _ hzs_len (ne_nil_of_len _ _ hzs_len hT) hzs_rows
  have hu_len : s.acts.length = w.T := hinv.acts_len.trans hc.hT
  have hu_rows : ∀ r ∈ s.acts, r.length = w.rollout_batch_size :=
    fun r hrm => (hinv.acts_rows r hrm).trans hc.hB
  have hut := transpose_shape _ _ _ hu_len (ne_nil_of_len _ _ hu_len hT) hu_rows
  have hg_len : s.goals.length = w.T := by
    rw [hinv.goals_eq, List.length_replicate, hc.hT]
  have hg_rows : ∀ r ∈ s.goals, r.length = w.rollout_batch_size := by
    intro r hrm
    rw [hinv.goals_eq] at hrm
    rw [List.eq_of_mem_replicate hrm]
    exact hwf1.g_len.trans hc.hB
  have hgt := transpose_shape _ _ _ hg_len (ne_nil_of_len _ _ hg_len hT) hg_rows
  have hr_len : s.rewards.length = w.T := hinv.rew_len.trans hc.hT
  have hr_rows : ∀ r ∈ s.rewards, r.length = w.rollout_batch_size :=
    fun r hrm => (hinv.rew_rows r hrm).trans hc.hB
  have hrt := transpose_shape _ _ _ hr_len (ne_nil_of_len _ _ hr_len hT) hr_rows
  have hd_len : s.dones.length = w.T := hinv.done_len.trans hc.hT
  have hd_rows : ∀ r ∈ s.dones, r.length = w.rollout_batch_size :=
    fun r hrm => (hinv.done_rows r hrm).trans hc.hB
  have hdt := transpose_shape _ _ _ hd_len (ne_nil_of_len _ _ hd_len hT) hd_rows
  have hv_len : s.valids.length = w.T := hinv.val_len.trans hc.hT
  have hv_rows : ∀ r ∈ s.valids, r.length = w.rollout_batch_size :=
    fun r hrm => (hinv.val_rows r hrm).trans hc.hB
  have hvt := transpose_shape _ _ _ hv_len (ne_nil_of_len _ _ hv_len hT) hv_rows
  refine
    { o_batch := by rw [hep, finishRollout_fst_o]; exact ho.1
      o_time := by rw [hep, finishRollout_fst_o]; exact ho.2
      ag_batch := by rw [hep, finishRollout_fst_ag]; exact hagt.1
      ag_time := by rw [hep, finishRollout_fst_ag]; exact hagt.2
      z_batch := by rw [hep, finishRollout_fst_z]; exact hzt.1
      z_time := by rw [hep, finishRollout_fst_z]; exact hzt.2
      u_batch := by rw [hep, finishRollout_fst_u]; exact hut.1
      u_time := by rw [hep, finishRollout_fst_u]; exact hut.2
      g_batch := by rw [hep, finishRollout_fst_g]; exact hgt.1
      g_time := by rw [hep, finishRollout_fst_g]; exact hgt.2
      myr_batch := by rw [hep, finishRollout_fst_myr]; exact hrt.1
      myr_time := by rw [hep, finishRollout_fst_myr]; exact hrt.2
      myd_batch := by rw [hep, finishRollout_fst_myd]; exact hdt.1
      myd_time := by rw [hep, finishRollout_fst_myd]; exact hdt.2
      myv_batch := by rw [hep, finishRollout_fst_myv]; exact hvt.1
      myv_time := by rw [hep, finishRollout_fst_myv]; exact hvt.2
      info_count := by
        rw [hep, finishRollout_fst_info, List.length_map, hinv.info_len, hc.hni]
      info_batch := ?_
      info_time := ?_ }
  · intro ch hch
    rw [hep, finishRollout_fst_info] at hch
    obtain ⟨l, hl, rfl⟩ := List.mem_map.mp hch
    obtain ⟨hlk, hlrows⟩ := hinv.info_time l hl
    have hlT : l.length = w.T := hlk.trans hc.hT
    have hlrows2 : ∀ r ∈ l, r.length = w.rollout_batch_size :=
      fun r hrm => (hlrows r hrm).trans hc.hB
    exact (transpose_shape _ _ _ hlT (ne_nil_of_len _ _ hlT hT) hlrows2).1
  · intro ch hch
    rw [hep, finishRollout_fst_info] at hch
    obtain ⟨l, hl, rfl⟩ := List.mem_map.mp hch
    obtain ⟨hlk, hlrows⟩ := hinv.info_time l hl
    have hlT : l.length = w.T := hlk.trans hc.hT
    have hlrows2 : ∀ r ∈ l, r.length = w.rollout_batch_size :=
      fun r hrm => (hlrows r hrm).trans hc.hB
    exact (transpose_shape _ _ _ hlT (ne_nil_of_len _ _ hlT hT) hlrows2).2

/-- C5, counterexample: the claim "noise_eps and random_eps are zero
whenever exploit is set, and random_eps equals 1 whenever random_action
is set" is contradicted at the concrete input `(wExploit, true)`: with
both `exploit` and `random_action` set, line 105 passes `random_eps = 1`,
not `0`. -/
theorem C5_counterexample :
    ¬ (∀ (w : Worker) (ra : Bool),
        (w.exploit = true → noiseEpsPassed w = 0 ∧ randomEpsPassed w ra = 0) ∧
        (ra = true → randomEpsPassed w ra = 1)) := by
  intro hAll
  have h := (hAll wExploit true).1 rfl
  have h1 : randomEpsPassed wExploit true = 1 := rfl
  rw [h1] at h
  exact absurd h.2 (by norm_num)

/-- C5, amended: at every timestep `noise_eps` is zeroed when `exploit`
is set; `random_eps` is forced to 1 whenever `random_action` is set (even
in exploit mode), and is zeroed when `exploit` is set and `random_action`
is not (lines 104-105). -/
theorem C5_eps_passed (w : Worker) (ra : Bool) :
    (w.exploit = true → noiseEpsPassed w = 0) ∧
    (ra = true → randomEpsPassed w ra = 1) ∧
    (w.exploit = true → ra = false → randomEpsPassed w ra = 0) := by
  refine ⟨?_, ?_, ?_⟩
  · intro hx; simp [noiseEpsPassed, hx]
  · intro hra; simp [randomEpsPassed, hra]
  · intro hx hra; simp [randomEpsPassed, hra, hx]

theorem C5_eps_passed_witness :
    noiseEpsPassed wExploit = 0 ∧ randomEpsPassed wExploit true = 1 ∧
    randomEpsPassed wExploit false = 0 :=
  ⟨(C5_eps_passed wExploit true).1 rfl, (C5_eps_passed wExploit true).2.1 rfl,
   (C5_eps_passed wExploit false).2.2 rfl rfl⟩

/-- C7, counterexample: the claim "each name is prefixed with
`<prefix>/` if and only if prefix is non-empty" fails at the concrete
input `(wEx, "w/")`: the prefix is non-empty but, because it already ends
in a slash, line 252 leaves every name unprefixed. -/
theorem C7_counterexample :
    ¬ (∀ (w : Worker) (pfx : String), (w.logs pfx).map Prod.fst =
        (if pfx = "" then logNames w else (logNames w).map fun n => pfx ++ "/" ++ n)) := by
  intro hAll
  have h := hAll wEx "w/"
  rw [if_neg (by decide)] at h
  exact absurd h (by decide)

/-- C7, amended: `logs(prefix)` returns the flat ordered statistics list,
and each name carries the `<prefix>/` prefix if and only if the prefix is
non-empty and does not already end in a slash (lines 242-255). -/
theorem C7_logs_names (w : Worker) (pfx : String) :
    (w.logs pfx).map Prod.fst =
      if pfx ≠ "" ∧ pyEndsWith pfx "/" = false
      then (logNames w).map fun n => pfx ++ "/" ++ n
      else logNames w := by
  unfold Worker.logs logNames
  by_cases hpfx : pfx ≠ "" ∧ pyEndsWith pfx "/" = false
  · cases hcq : w.compute_Q <;> simp [hpfx, hcq]
  · cases hcq : w.compute_Q <;> simp [hpfx, hcq]

/-- C8: when the probe environment lacks the max-episode-steps attribute,
`prepare_params` fails at its assertion before any rollout runs; when the
attribute is present the horizon `T` is set to its value; and
`RolloutWorker` construction succeeds exactly when `T > 0` (config.py
lines 115-117; rollout.py lines 33-34). -/
theorem C8_config_asserts (env : EnvHandle) :
    (env.max_episode_steps = none → (prepare_params env).isOk = false) ∧
    (∀ n : Int, env.max_episode_steps = some n →
      prepare_params env = .ok ⟨n, 1 - 1 / (n : ℚ)⟩) ∧
    (∀ (mkE : Unit → Env) (pol : Policy) (dg ni : Nat) (T : Int) (B : Nat)
      (ex utn cq : Bool) (ne re : ℚ) (hl : Nat),
      (RolloutWorker.init mkE pol dg ni T B ex utn cq ne re hl).isOk = true ↔ 0 < T) := by
  refine ⟨?_, ?_, ?_⟩
  · intro hnone
    simp [prepare_params, hnone, Except.isOk, Except.toBool]
  · intro n hsome
    simp [prepare_params, hsome]
  · intro mkE pol dg ni T B ex utn cq ne re hl
    simp only [RolloutWorker.init]
    split
    · next hpos => exact iff_of_true rfl hpos
    · next hneg => exact iff_of_false (by simp [Except.isOk, Except.toBool]) hneg

theorem C8_config_asserts_witness :
    (prepare_params ⟨none⟩).isOk = false ∧
    prepare_params ⟨some 7⟩ = .ok ⟨7, 1 - 1 / ((7 : Int) : ℚ)⟩ ∧
    ((RolloutWorker.init (fun _ => default) constPolicy 1 0 (-3) 1
        false false false 0 0 100).isOk = true ↔ (0 : Int) < -3) :=
  ⟨(C8_config_asserts ⟨none⟩).1 rfl,
   (C8_config_asserts ⟨some 7⟩).2.1 7 rfl,
   (C8_config_asserts ⟨none⟩).2.2 (fun _ => default) constPolicy 1 0 (-3) 1
     false false false 0 0 100⟩

theorem countK_append_one {K : Type} [DecidableEq K] (l : List K) (k x : K) :
    countK k (l ++ [x]) = countK k l + (if x = k then 1 else 0) := by
  induction l with
  | nil => simp [countK]
  | cons a rest ih => rw [List.cons_append, countK, countK, ih, Nat.add_assoc]

theorem runCached_spec {K E : Type} [DecidableEq K] (mk : K → Nat → E) :
    ∀ (ks : List K) (s : CacheState K E),
      (∀ k2, (∀ e, cacheFind k2 s.cache = some e → e = mk k2 0) ∧
        countK k2 s.calls = (if (cacheFind k2 s.cache).isSome then 1 else 0)) →
      (runCached mk ks s).1 = ks.map (fun kk => (kk, mk kk 0)) ∧
      (∀ k2, (∀ e, cacheFind k2 (runCached mk ks s).2.cache = some e → e = mk k2 0) ∧
        countK k2 (runCached mk ks s).2.calls =
          (if (cacheFind k2 (runCached mk ks s).2.cache).isSome then 1 else 0)) := by
  intro ks
  induction ks with
  | nil => exact fun s hs => ⟨rfl, hs⟩
  | cons k rest ih =>
    intro s hs
    cases hfind : cacheFind k s.cache with
    | some e =>
      have he : e = mk k 0 := (hs k).1 e hfind
      have hmain := ih s hs
      constructor
      · simp [runCached, cached_make_env, hfind, hmain.1, he]
      · simpa [runCached, cached_make_env, hfind] using hmain.2
    | none =>
      have hcount : countK k s.calls = 0 := by
        have h2 := (hs k).2
        rw [hfind] at h2
        simpa using h2
      have hmk : mk k (countK k s.calls) = mk k 0 := by rw [hcount]
      have hs' : ∀ k2,
          (∀ e, cacheFind k2 ((k, mk k 0) :: s.cache) = some e → e = mk k2 0) ∧
          countK k2 (s.calls ++ [k]) =
            (if (cacheFind k2 ((k, mk k 0) :: s.cache)).isSome then 1 else 0) := by
        intro k2
        by_cases hk : k2 = k
        · subst hk
          constructor
          · intro e he2
            rw [cacheFind, if_pos rfl] at he2
            injection he2 with he2
            exact he2.symm
          · rw [countK_append_one, hcount]
            simp [cacheFind]
        · constructor
          · intro e he2
            rw [cacheFind, if_neg hk] at he2
            exact (hs k2).1 e he2
          · rw [countK_append_one, cacheFind, if_neg hk]
            rw [if_neg (fun hkk => hk hkk.symm)]
            simpa using (hs k2).2
      have hmain := ih ⟨(k, mk k 0) :: s.cache, s.calls ++ [k]⟩ hs'
      constructor
      · simp only [runCached, cached_make_env, hfind]
        rw [hmk]
        simp [hmain.1]
      · simp only [runCached, cached_make_env, hfind]
        rw [hmk]
        exact hmain.2

/-- C9: `cached_make_env` is memoizing: over any sequence of requests
issued from a fresh process state, each factory is invoked at most once,
and every request is answered with the object the factory produced on its
first (and only) invocation (config.py lines 80-90). -/
theorem C9_memoization {K E : Type} [DecidableEq K] (mk : K → Nat → E) (ks : List K)
    (k : K) :
    countK k (runCached mk ks ⟨[], []⟩).2.calls ≤ 1 ∧
    (runCached mk ks ⟨[], []⟩).1 = ks.map (fun kk => (kk, mk kk 0)) := by
  have h0 : ∀ k2 : K, (∀ e, cacheFind k2 (CacheState.mk ([] : List (K × E)) []).cache = some e →
      e = mk k2 0) ∧
      countK k2 (CacheState.mk ([] : List (K × E)) []).calls =
        (if (cacheFind k2 (CacheState.mk ([] : List (K × E)) []).cache).isSome then 1
         else 0) := by
    intro k2
    constructor
    · intro e he
      simp [cacheFind] at he
    · simp [cacheFind, countK]
  have hspec := runCached_spec mk ks ⟨[], []⟩ h0
  refine ⟨?_, hspec.1⟩
  have h2 := (hspec.2 k).2
  rw [h2]
  split <;> omega

theorem C9_memoization_witness :
    countK 0 (runCached mkTag [0, 1, 0, 0] ⟨[], []⟩).2.calls ≤ 1 ∧
    (runCached mkTag [0, 1, 0, 0] ⟨[], []⟩).1 =
      [0, 1, 0, 0].map (fun kk => (kk, mkTag kk 0)) :=
  ⟨(C9_memoization mkTag [0, 1, 0, 0] 0).1, (C9_memoization mkTag [0, 1, 0, 0] 0).2⟩

theorem wEx_wf : WorkerWF wEx :=
  ⟨rfl, rfl, rfl, rfl, fun _ _ _ _ _ _ _ _ _ => rfl⟩

theorem wEx_dict : ∀ i, i < wEx.rollout_batch_size → ∃ ob agv dg,
    (wEx.envs.getD i default).resetObs = .dict ob agv dg := by
  intro i hi
  have hB : wEx.rollout_batch_size = 1 := rfl
  rw [hB] at hi
  have hi0 : i = 0 := by omega
  subst hi0
  exact ⟨[some 0], [0], [5], rfl⟩

theorem C2_episode_shape_witness : EpisodeShapeOK epEx 1 1 0 :=
  @C2_episode_shape 1 wEx (some [[7]]) [[1]] false epEx wEx2 wEx_wf (by decide) rfl rfl

theorem C3_valid_monotone_witness : ValidMaskMonotone epEx :=
  @C3_valid_monotone 1 wEx (some [[7]]) [[1]] false epEx wEx2 wEx_wf rfl

theorem C4_masked_return_witness :
    wEx2.return_history = dequePush 100 [] (npMean (maskedReturns epEx 1)) :=
  @C4_masked_return 1 wEx (some [[7]]) [[1]] false epEx wEx2 wEx_wf (by decide) rfl

theorem C6_goal_override_witness : GoalsOverridden epEx [[7]] 1 1 :=
  @C6_goal_override 1 wEx [[7]] [[1]] false epEx wEx2 wEx_wf (by decide) wEx_dict rfl

theorem C10_stats_frame_witness : StatsPushed wEx wEx2 :=
  @C10_stats_frame 1 wEx (some [[7]]) [[1]] false epEx wEx2 rfl
